import Mathlib

/-!
Verification of `tests/api-reliability-test/analyze_results.py` from the
VellumForge2 repository: a shallow embedding of its record classifier, log
event classifier, session analyzer, session discovery and report aggregation,
together with theorems settling the specified properties.

Conventions of the embedding:
* Python strings are Lean `String`s (sequences of Unicode code points, matching
  Python's character model for the ASCII data the program manipulates).
* A parsed JSON line is a `Json` value; a line that fails `json.loads` is
  modelled as `none` (the script swallows the exception and skips the line).
* Python dicts produced by `json.loads` are modelled as association lists with
  distinct keys (`json.loads` keeps the last duplicate key, so the parsed dict
  has unique keys); lookup takes the first match.
* Files are modelled as `Option` of their (pre-split) line lists: `none` means
  the file does not exist.
-/

/-- ASCII whitespace stripped by Python's `str.strip()` (the program's data is
ASCII; the full Unicode whitespace set of Python is not needed here). -/
def isPySpace (c : Char) : Bool :=
  c = ' ' || c = '\t' || c = '\n' || c = '\r' || c = '\x0b' || c = '\x0c'

/-- Python `str.strip()`: drop leading and trailing whitespace. -/
def pyStrip (s : String) : String :=
  ⟨((s.data.dropWhile isPySpace).reverse.dropWhile isPySpace).reverse⟩

/-- Python `str.lower()` (ASCII case folding suffices for the needles used). -/
def pyLower (s : String) : String := ⟨s.data.map Char.toLower⟩

/-- `needle.isPrefixOf` somewhere in `hay`: the semantics of Python's
`needle in hay` substring test, on character lists. -/
def containsSub (needle : List Char) : List Char → Bool
  | [] => needle.isEmpty
  | c :: rest => needle.isPrefixOf (c :: rest) || containsSub needle rest

/-- Python `needle in hay` for strings. -/
def strContains (hay needle : String) : Bool := containsSub needle.data hay.data

/-- Python `s[-n:]`: the last `n` characters of `s` (all of `s` when shorter). -/
def lastChars (n : Nat) (s : String) : String := ⟨s.data.drop (s.data.length - n)⟩

/-- Lexicographic `≤` on character lists by code point — the order Python uses
to compare strings. -/
def lexLe : List Char → List Char → Bool
  | [], _ => true
  | _ :: _, [] => false
  | a :: as, b :: bs => if a = b then lexLe as bs else decide (a < b)

/-- Python `a <= b` on strings. -/
def strLe (a b : String) : Bool := lexLe a.data b.data

/-- JSON values, as produced by `json.loads`. Numbers are modelled as integers
(the program only ever copies them around; no claim depends on floats). -/
inductive Json where
  | null
  | bool (b : Bool)
  | num (n : Int)
  | str (s : String)
  | arr (elems : List Json)
  | obj (fields : List (String × Json))

/-- Python `dict.get(k)` / `k in d` on a parsed JSON object. -/
def jLookup (k : String) : List (String × Json) → Option Json
  | [] => none
  | (k2, v) :: rest => if k2 = k then some v else jLookup k rest

mutual
/-- Python `str(v)` for a JSON-decoded value: strings are returned as-is,
scalars printed the way Python prints them; containers use (an approximation
of) `repr` — no analysed dataset exercises the container branches. -/
def pyStr : Json → String
  | .null => "None"
  | .bool true => "True"
  | .bool false => "False"
  | .num n => toString n
  | .str s => s
  | .arr es => "[" ++ pyStrList es ++ "]"
  | .obj fs => "\x7b" ++ pyStrFields fs ++ "\x7d"

def pyStrList : List Json → String
  | [] => ""
  | [v] => pyStr v
  | v :: rest => pyStr v ++ ", " ++ pyStrList rest

def pyStrFields : List (String × Json) → String
  | [] => ""
  | [(k, v)] => "\x27" ++ k ++ "\x27: " ++ pyStr v
  | (k, v) :: rest => "\x27" ++ k ++ "\x27: " ++ pyStr v ++ ", " ++ pyStrFields rest
end

/-- One diagnostic sample captured for an incomplete record:
`{'length': len(output_text), 'ending': output_text[-60:]}`. -/
structure Sample where
  length : Nat
  ending : String
deriving DecidableEq

/-- The analysis dict built by `analyze_session`. The three `log_*` keys are
only added when a `Generation pipeline completed` event is seen; `logSummary`
models their joint presence, holding the raw values of the event's
`total_prompts`, `successful` and `failed` fields (`0` when absent). -/
structure Analysis where
  session_dir : String
  total_records : Nat
  complete : Nat
  incomplete : Nat
  empty : Nat
  caught_incomplete : Nat
  caught_refusal : Nat
  caught_missing_finish : Nat
  sample_incomplete : List Sample
  logSummary : Option (Json × Json × Json)

/-- The initial analysis dict of `analyze_session` (lines 17-27 of the script). -/
def initAnalysis (session_dir : String) : Analysis :=
  { session_dir := session_dir
    total_records := 0, complete := 0, incomplete := 0, empty := 0
    caught_incomplete := 0, caught_refusal := 0, caught_missing_finish := 0
    sample_incomplete := [], logSummary := none }

/-- Output-text extraction from one dataset record (lines 36-44):
`str(record['output']).strip()` when the record has an `output` key, else the
`value` of the last element of a non-empty `conversations` list, when that
element is a dict carrying one; otherwise `output_text` stays `None` and the
record is skipped. A non-dict record aborts via the blanket `try/except`
(`record['output']` / `record.get` raise on non-dicts), so it also yields
`none`. -/
def extractOutput : Json → Option String
  | .obj fields =>
    match jLookup "output" fields with
    | some v => some (pyStrip (pyStr v))
    | none =>
      match jLookup "conversations" fields with
      | some (.arr convs) =>
        match convs.getLast? with
        | some (.obj turn) =>
          match jLookup "value" turn with
          | some v => some (pyStrip (pyStr v))
          | none => none
        | _ => none
      | _ => none
  | _ => none

/-- `output_text[-1] in '.!?"'` (line 53), guarded by non-emptiness. -/
def isCompleteEnding (t : String) : Bool :=
  match t.data.getLast? with
  | some c => c = '.' || c = '!' || c = '?' || c = '"'
  | none => false

/-- Processing of one dataset line (lines 33-63): `none` is a line whose
`json.loads` failed (skipped by the `except`); a recognized record bumps
`total_records` and exactly one of the three classification counters, and the
first 3 incomplete records are sampled. -/
def stepRecord (a : Analysis) (line : Option Json) : Analysis :=
  match line with
  | none => a
  | some record =>
    match extractOutput record with
    | none => a
    | some t =>
      let a1 := { a with total_records := a.total_records + 1 }
      if t = "" then
        { a1 with empty := a1.empty + 1 }
      else if isCompleteEnding t then
        { a1 with complete := a1.complete + 1 }
      else
        let a2 := { a1 with incomplete := a1.incomplete + 1 }
        if a2.sample_incomplete.length < 3 then
          { a2 with sample_incomplete :=
              a2.sample_incomplete ++ [⟨t.length, lastChars 60 t⟩] }
        else a2

/-- `entry.get('msg', '')` as used by the substring tests (lines 73-78): a
missing key defaults to `''`; a present non-string value makes the Python
`in` test raise `TypeError`, aborting the whole line inside the blanket
`try/except` — modelled as `none`. -/
def msgForMatching (fields : List (String × Json)) : Option String :=
  match jLookup "msg" fields with
  | none => some ""
  | some (.str s) => some s
  | some _ => none

/-- `entry.get('level') in ['WARN', 'ERROR']` (line 72): only a string value
can compare equal to `'WARN'` or `'ERROR'`. -/
def isWarnOrError (fields : List (String × Json)) : Bool :=
  match jLookup "level" fields with
  | some (.str s) => s = "WARN" || s = "ERROR"
  | _ => false

/-- The pipeline-summary capture (lines 82-85): when `msg` equals
`'Generation pipeline completed'`, record `total_prompts` / `successful` /
`failed` (each defaulting to `0`), overwriting any earlier capture. -/
def pipelineCheck (a : Analysis) (fields : List (String × Json)) : Analysis :=
  match jLookup "msg" fields with
  | some (.str s) =>
    if s = "Generation pipeline completed" then
      let summary := ((jLookup "total_prompts" fields).getD (.num 0),
        (jLookup "successful" fields).getD (.num 0),
        (jLookup "failed" fields).getD (.num 0))
      { a with logSummary := some summary }
    else a
  | _ => a

/-- Processing of one log line (lines 69-87). A non-dict line raises on
`.get` and is skipped; with a WARN/ERROR level, a non-string `msg` raises in
the substring test, which also skips the pipeline-summary check for that
line. -/
def stepEvent (a : Analysis) (line : Option Json) : Analysis :=
  match line with
  | some (.obj fields) =>
    if isWarnOrError fields then
      match msgForMatching fields with
      | none => a
      | some msg =>
        let a1 :=
          if strContains msg "Incomplete output detected" then
            { a with caught_incomplete := a.caught_incomplete + 1 }
          else if strContains msg "Invalid finish_reason" then
            { a with caught_missing_finish := a.caught_missing_finish + 1 }
          else if strContains (pyLower msg) "refused" && strContains msg "Chosen response" then
            { a with caught_refusal := a.caught_refusal + 1 }
          else a
        pipelineCheck a1 fields
    else pipelineCheck a fields
  | _ => a

/-- The two per-session artifact files, each `none` when absent; each line is
the `json.loads` of one physical line, `none` when malformed. -/
structure SessionData where
  dataset : Option (List (Option Json))
  log : Option (List (Option Json))
  config : Option String

/-- The body of `analyze_session` for an existing directory (lines 17-89):
scan the dataset (if present), then the log (if present). -/
def analyzeData (session_dir : String) (d : SessionData) : Analysis :=
  let a0 := initAnalysis session_dir
  let a1 := match d.dataset with
    | none => a0
    | some lines => lines.foldl stepRecord a0
  match d.log with
  | none => a1
  | some lines => lines.foldl stepEvent a1

/-- `analyze_session` (lines 12-89): `None` when the directory does not exist
(`fsEntry = none`), otherwise the accumulated analysis. -/
def analyze_session (session_dir : String) (fsEntry : Option SessionData) :
    Option Analysis :=
  match fsEntry with
  | none => none
  | some d => some (analyzeData session_dir d)

/-- One `session_*` directory as seen by discovery: its basename-bearing path
and the raw (unparsed) lines of its `session.log`, `none` when the log file is
absent. -/
structure SessionDir where
  name : String
  log : Option (List String)

/-- A raw log line matching the stress-test heuristic (line 109). -/
def isJobLine (l : String) : Bool :=
  strContains l "Job processing breakdown" || strContains l "Job failed"

/-- The inner counting loop of `find_latest_sessions` (lines 106-113) appends
the session exactly when at least 90 lines match; counting with an early break
at 90 is extensionally the same as comparing the full match count to 90. -/
def qualifies (lines : List String) : Bool :=
  90 ≤ (lines.filter isJobLine).length

/-- Whether a directory is appended by the scan: it must have a log file with
at least 90 matching lines. -/
def dirQualifies (d : SessionDir) : Bool :=
  match d.log with
  | some lines => qualifies lines
  | none => false

/-- Insert into a list sorted descending by name, before the first element
that is not greater — the placement `sorted(..., reverse=True)` gives. -/
def insertDesc (d : SessionDir) : List SessionDir → List SessionDir
  | [] => [d]
  | e :: rest =>
    if strLe e.name d.name then d :: e :: rest else e :: insertDesc d rest

/-- `sorted(glob.glob(...), reverse=True)` (line 102): lexicographic descending
order on the directory names (Python compares strings by code point, as Lean's
`String` order does). -/
def sortDesc : List SessionDir → List SessionDir
  | [] => []
  | d :: rest => insertDesc d (sortDesc rest)

/-- The scanning loop of `find_latest_sessions` (lines 102-115): walk the
sorted directories, append each qualifying one, and stop as soon as
`len(sessions) >= max_sessions` — a check made at the end of every iteration,
after any append. -/
def findLoop (maxSessions : Nat) (acc : List String) : List SessionDir → List String
  | [] => acc
  | d :: rest =>
    let acc1 := if dirQualifies d then acc ++ [d.name] else acc
    if maxSessions ≤ acc1.length then acc1 else findLoop maxSessions acc1 rest

/-- `find_latest_sessions(base_dir, max_sessions)` (lines 92-117): `base` is
`none` when `base_dir` does not exist (→ no sessions); otherwise the glob
result is sorted descending and scanned. -/
def find_latest_sessions (base : Option (List SessionDir)) (maxSessions : Nat) :
    List String :=
  match base with
  | none => []
  | some dirs => findLoop maxSessions [] (sortDesc dirs)

/-- Provider detection from the `config.toml.bak` snapshot (lines 168-177):
`none` when the file is absent; the `nahcrof` membership test runs first and
wins whenever the substring occurs anywhere, regardless of position. -/
def detectProvider (config : Option String) : String :=
  match config with
  | none => "unknown"
  | some content =>
    if strContains content "nahcrof" then "nahcrof"
    else if strContains content "chutes" then "chutes"
    else "unknown"

/-- An analysis dict after `analysis["provider"] = provider_name` (line 181):
the provider tag paired with the analysis. -/
abbrev TaggedAnalysis := String × Analysis

/-- The per-session loop of `main` (lines 162-182): skip (with a warning)
paths that do not exist, otherwise tag the analysis with the detected
provider and append it. (`analyze_session` returns a non-empty — hence
truthy — dict whenever the directory exists.) -/
def analyzeAll (fs : String → Option SessionData) (sessions : List String) :
    List TaggedAnalysis :=
  sessions.foldl
    (fun acc p =>
      match fs p with
      | none => acc
      | some d => acc ++ [(detectProvider d.config, analyzeData p d)])
    []

/-- Python dict assignment `m[k] = v`: replace the value of an existing key in
place, else append a new binding. -/
def dictInsert (m : List (String × TaggedAnalysis)) (k : String)
    (v : TaggedAnalysis) : List (String × TaggedAnalysis) :=
  match m with
  | [] => [(k, v)]
  | (k2, v2) :: rest =>
    if k2 = k then (k2, v) :: rest else (k2, v2) :: dictInsert rest k v

/-- Python dict lookup on the association-list model. -/
def dictLookup (m : List (String × TaggedAnalysis)) (k : String) :
    Option TaggedAnalysis :=
  match m with
  | [] => none
  | (k2, v) :: rest => if k2 = k then some v else dictLookup rest k

/-- The comparison-mode reduction (lines 250-252):
`provider_results[r["provider"]] = r` over the analyses in order, so for each
provider the binding ends at the analysis appearing *last* in the list. -/
def buildProviderResults (analyses : List TaggedAnalysis) :
    List (String × TaggedAnalysis) :=
  analyses.foldl (fun m r => dictInsert m r.1 r) []

/-- The JSON document written to `tests/api-reliability-test/results.json`.
`sessionsDoc` is the shape the script builds (line 421:
`output = {"sessions": analyses}`); `providerMapDoc` is the provider-keyed
shape the specification describes for comparison mode, stated here only to be
compared against the script's behaviour. -/
inductive OutputDoc where
  | sessionsDoc (analyses : List TaggedAnalysis)
  | providerMapDoc (results : List (String × TaggedAnalysis))

/-- The observable outcome of one run of `main` (lines 120-426): the chosen
session list, the tagged analyses, whether the comparison path was taken, the
comparison map (comparison mode only), whether the no-sessions warning was
printed, and the document written to the fixed results path (`none` when the
run returns before reaching the write). -/
structure MainResult where
  sessions : List String
  analyses : List TaggedAnalysis
  comparisonMode : Bool
  provider_results : Option (List (String × TaggedAnalysis))
  warnedNoSessions : Bool
  written : Option OutputDoc

/-- `main` (lines 120-426) with console output abstracted away. Inputs:
`argSessions` = the positional `sessions` arguments; `base` = the directory
listing used by discovery; `maxAuto` = `--max-auto`; `fs` = the filesystem
view mapping a session path to its data (`none` when the directory does not
exist). Comparison mode is taken exactly when no explicit sessions are given;
the early returns at lines 156-159 and 184-186 leave `written = none`; every
run that reaches the end writes `{"sessions": analyses}` (lines 420-424). -/
def mainRun (argSessions : List String) (base : Option (List SessionDir))
    (maxAuto : Nat) (fs : String → Option SessionData) : MainResult :=
  let sessions :=
    if argSessions.isEmpty then find_latest_sessions base maxAuto
    else argSessions
  if sessions.isEmpty then
    { sessions := sessions, analyses := [], comparisonMode := argSessions.isEmpty
      provider_results := none, warnedNoSessions := true, written := none }
  else
    let analyses := analyzeAll fs sessions
    if analyses.isEmpty then
      { sessions := sessions, analyses := analyses
        comparisonMode := argSessions.isEmpty
        provider_results := none, warnedNoSessions := false, written := none }
    else
      let pr := if argSessions.isEmpty then some (buildProviderResults analyses)
        else none
      { sessions := sessions, analyses := analyses
        comparisonMode := argSessions.isEmpty
        provider_results := pr, warnedNoSessions := false
        written := some (OutputDoc.sessionsDoc analyses) }

/-! ### Concrete worlds used by examples, witnesses and counterexamples -/

/-- A `session.log` whose 90 lines all carry the `Job failed` marker: the
smallest log that passes the stress-test heuristic. -/
def jobLog : List String := List.replicate 90 "2025 WARN Job failed x"

/-- Path of the chronologically older of two example sessions. -/
def olderP : String := "output/session_2025-11-01T00-00-00"

/-- Path of the chronologically newer of two example sessions. -/
def newerP : String := "output/session_2025-11-02T00-00-00"

/-- Two qualifying stress-test session directories (the glob may list them in
any order; discovery sorts them descending, newer first). -/
def twoDirs : List SessionDir := [⟨olderP, some jobLog⟩, ⟨newerP, some jobLog⟩]

/-- Data of each example session: no dataset file, a 90-line log none of whose
lines is valid JSON (each is skipped by `analyze_session`), and a config
snapshot naming the `chutes` provider. -/
def chutesData : SessionData :=
  ⟨none, some (List.replicate 90 none), some "api_base = llm.chutes.ai"⟩

/-- Filesystem view for the example runs: every session path resolves to
`chutesData`. -/
def chutesFS : String → Option SessionData := fun _ => some chutesData

/-- The comparison-mode (no explicit sessions) run over the two example
sessions. -/
def comparisonRun : MainResult := mainRun [] (some twoDirs) 2 chutesFS

/-! ### Helper lemmas -/

/-- Invariants preserved by each step survive a `foldl`. -/
lemma foldl_inv {α : Type} {P : Analysis → Prop} {f : Analysis → α → Analysis}
    (hf : ∀ a x, P a → P (f a x)) :
    ∀ (l : List α) (a : Analysis), P a → P (l.foldl f a) := by
  intro l
  induction l with
  | nil => intro a ha; exact ha
  | cons x rest ih => intro a ha; exact ih (f a x) (hf a x ha)

lemma stepRecord_unrecognized (a : Analysis) (r : Json)
    (h : extractOutput r = none) : stepRecord a (some r) = a := by
  simp [stepRecord, h]

lemma stepRecord_recognized (a : Analysis) (r : Json) (t : String)
    (h : extractOutput r = some t) :
    (stepRecord a (some r)).total_records = a.total_records + 1 ∧
    (((stepRecord a (some r)).complete, (stepRecord a (some r)).incomplete,
        (stepRecord a (some r)).empty)
      = (a.complete + 1, a.incomplete, a.empty) ∨
     ((stepRecord a (some r)).complete, (stepRecord a (some r)).incomplete,
        (stepRecord a (some r)).empty)
      = (a.complete, a.incomplete + 1, a.empty) ∨
     ((stepRecord a (some r)).complete, (stepRecord a (some r)).incomplete,
        (stepRecord a (some r)).empty)
      = (a.complete, a.incomplete, a.empty + 1)) := by
  by_cases h1 : t = "" <;> by_cases h2 : isCompleteEnding t <;>
    by_cases h3 : a.sample_incomplete.length < 3 <;>
    simp [stepRecord, h, h1, h2, h3]

lemma stepRecord_partition (a : Analysis) (l : Option Json)
    (h : a.total_records = a.complete + a.incomplete + a.empty) :
    (stepRecord a l).total_records
      = (stepRecord a l).complete + (stepRecord a l).incomplete
        + (stepRecord a l).empty := by
  match l with
  | none => exact h
  | some r =>
    match hx : extractOutput r with
    | none => rw [stepRecord_unrecognized a r hx]; exact h
    | some t =>
      obtain ⟨ht, hc⟩ := stepRecord_recognized a r t hx
      rcases hc with hc | hc | hc <;>
        · rw [ht, h]
          rw [Prod.mk.injEq, Prod.mk.injEq] at hc
          omega

lemma pipelineCheck_shape (a : Analysis) (fields : List (String × Json)) :
    ∃ ls, pipelineCheck a fields = { a with logSummary := ls } := by
  simp only [pipelineCheck]
  split
  · split
    · exact ⟨_, rfl⟩
    · exact ⟨a.logSummary, rfl⟩
  · exact ⟨a.logSummary, rfl⟩

/-- A log event only ever touches the three caught-failure counters and the
pipeline summary; the dataset counters and samples are left alone. -/
lemma stepEvent_shape (a : Analysis) (l : Option Json) :
    ∃ ci cm cr ls, stepEvent a l =
      { a with caught_incomplete := ci, caught_missing_finish := cm,
               caught_refusal := cr, logSummary := ls } := by
  match l with
  | none => exact ⟨_, _, _, a.logSummary, rfl⟩
  | some (.null) => exact ⟨_, _, _, a.logSummary, rfl⟩
  | some (.bool b) => exact ⟨_, _, _, a.logSummary, rfl⟩
  | some (.num n) => exact ⟨_, _, _, a.logSummary, rfl⟩
  | some (.str s) => exact ⟨_, _, _, a.logSummary, rfl⟩
  | some (.arr es) => exact ⟨_, _, _, a.logSummary, rfl⟩
  | some (.obj fields) =>
    simp only [stepEvent]
    by_cases hw : isWarnOrError fields = true
    · simp only [hw, if_true]
      rcases hmm : msgForMatching fields with _ | msg
      · exact ⟨_, _, _, a.logSummary, rfl⟩
      · by_cases h1 : strContains msg "Incomplete output detected" = true
        · obtain ⟨ls, hls⟩ :=
            pipelineCheck_shape { a with caught_incomplete := a.caught_incomplete + 1 } fields
          exact ⟨_, _, _, ls, by simp only [h1, if_true]; exact hls⟩
        · by_cases h2 : strContains msg "Invalid finish_reason" = true
          · obtain ⟨ls, hls⟩ := pipelineCheck_shape
              { a with caught_missing_finish := a.caught_missing_finish + 1 } fields
            exact ⟨_, _, _, ls, by
              simp only [h1, h2, if_true, Bool.false_eq_true, if_false]; exact hls⟩
          · by_cases h3 : (strContains (pyLower msg) "refused"
                && strContains msg "Chosen response") = true
            · obtain ⟨ls, hls⟩ := pipelineCheck_shape
                { a with caught_refusal := a.caught_refusal + 1 } fields
              exact ⟨_, _, _, ls, by
                simp only [h1, h2, h3, if_true, Bool.false_eq_true, if_false]; exact hls⟩
            · obtain ⟨ls, hls⟩ := pipelineCheck_shape a fields
              exact ⟨_, _, _, ls, by
                simp only [h1, h2, h3, Bool.false_eq_true, if_false]; exact hls⟩
    · simp only [hw]
      obtain ⟨ls, hls⟩ := pipelineCheck_shape a fields
      exact ⟨_, _, _, ls, by simp only [Bool.false_eq_true, if_false]; exact hls⟩

lemma stepEvent_ds (a : Analysis) (l : Option Json) :
    (stepEvent a l).total_records = a.total_records ∧
    (stepEvent a l).complete = a.complete ∧
    (stepEvent a l).incomplete = a.incomplete ∧
    (stepEvent a l).empty = a.empty ∧
    (stepEvent a l).sample_incomplete = a.sample_incomplete := by
  obtain ⟨ci, cm, cr, ls, h⟩ := stepEvent_shape a l
  rw [h]
  exact ⟨rfl, rfl, rfl, rfl, rfl⟩

lemma stepEvent_partition (a : Analysis) (l : Option Json)
    (h : a.total_records = a.complete + a.incomplete + a.empty) :
    (stepEvent a l).total_records
      = (stepEvent a l).complete + (stepEvent a l).incomplete
        + (stepEvent a l).empty := by
  obtain ⟨h1, h2, h3, h4, _⟩ := stepEvent_ds a l
  rw [h1, h2, h3, h4]; exact h

lemma stepRecord_sample_cases (a : Analysis) (l : Option Json) :
    (stepRecord a l).sample_incomplete = a.sample_incomplete ∨
    (a.sample_incomplete.length < 3 ∧
      ∃ s, (stepRecord a l).sample_incomplete = a.sample_incomplete ++ [s]) := by
  match l with
  | none => exact Or.inl rfl
  | some r =>
    match hx : extractOutput r with
    | none => rw [stepRecord_unrecognized a r hx]; exact Or.inl rfl
    | some t =>
      by_cases h1 : t = "" <;> by_cases h2 : isCompleteEnding t <;>
        by_cases h3 : a.sample_incomplete.length < 3 <;>
        simp [stepRecord, hx, h1, h2, h3]

lemma stepRecord_sample_bound (a : Analysis) (l : Option Json)
    (h : a.sample_incomplete.length ≤ 3) :
    (stepRecord a l).sample_incomplete.length ≤ 3 := by
  rcases stepRecord_sample_cases a l with hc | ⟨hlt, s, hs⟩
  · rw [hc]; exact h
  · rw [hs]; simp; omega

lemma stepEvent_sample_bound (a : Analysis) (l : Option Json)
    (h : a.sample_incomplete.length ≤ 3) :
    (stepEvent a l).sample_incomplete.length ≤ 3 := by
  rw [(stepEvent_ds a l).2.2.2.2]; exact h

lemma analyzeData_inv {P : Analysis → Prop} (sd : String) (d : SessionData)
    (h0 : P (initAnalysis sd))
    (hr : ∀ a l, P a → P (stepRecord a l))
    (he : ∀ a l, P a → P (stepEvent a l)) :
    P (analyzeData sd d) := by
  obtain ⟨ds, lg, cfg⟩ := d
  have h1 : P (match ds with
      | none => initAnalysis sd
      | some lines => lines.foldl stepRecord (initAnalysis sd)) := by
    cases ds with
    | none => exact h0
    | some lines => exact foldl_inv hr lines _ h0
  cases lg with
  | none => exact h1
  | some lines => exact foldl_inv he lines _ h1

lemma extractOutput_trimmed (r : Json) (t : String)
    (h : extractOutput r = some t) : ∃ v, t = pyStrip (pyStr v) := by
  unfold extractOutput at h
  repeat' split at h
  all_goals simp only [Option.some.injEq, reduceCtorEq] at h
  all_goals exact ⟨_, h.symm⟩

lemma extractOutput_output_key (fields : List (String × Json)) (v : Json)
    (h : jLookup "output" fields = some v) :
    extractOutput (.obj fields) = some (pyStrip (pyStr v)) := by
  simp [extractOutput, h]

lemma extractOutput_conversations (fields : List (String × Json))
    (convs : List Json) (turn : List (String × Json)) (v : Json)
    (h0 : jLookup "output" fields = none)
    (h1 : jLookup "conversations" fields = some (.arr convs))
    (h2 : convs.getLast? = some (.obj turn))
    (h3 : jLookup "value" turn = some v) :
    extractOutput (.obj fields) = some (pyStrip (pyStr v)) := by
  simp [extractOutput, h0, h1, h2, h3]

lemma getLast?_ne_empty (t : String) (c : Char) (h : t.data.getLast? = some c) :
    ¬ t = "" := by
  intro he
  rw [he] at h
  simp at h

lemma isCompleteEnding_last (t : String) (c : Char)
    (h : t.data.getLast? = some c) :
    isCompleteEnding t = (c = '.' || c = '!' || c = '?' || c = '"') := by
  unfold isCompleteEnding
  rw [h]

lemma stepRecord_empty_eq (a : Analysis) (r : Json) (t : String)
    (hx : extractOutput r = some t) (ht : t = "") :
    stepRecord a (some r)
      = { a with total_records := a.total_records + 1, empty := a.empty + 1 } := by
  simp [stepRecord, hx, ht]

lemma stepRecord_complete_eq (a : Analysis) (r : Json) (t : String)
    (hx : extractOutput r = some t) (ht : ¬ t = "")
    (hc : isCompleteEnding t = true) :
    stepRecord a (some r)
      = { a with total_records := a.total_records + 1,
                 complete := a.complete + 1 } := by
  simp [stepRecord, hx, ht, hc]

lemma stepRecord_incomplete_lt (a : Analysis) (r : Json) (t : String)
    (hx : extractOutput r = some t) (ht : ¬ t = "")
    (hc : isCompleteEnding t = false) (hlen : a.sample_incomplete.length < 3) :
    stepRecord a (some r)
      = { a with total_records := a.total_records + 1,
                 incomplete := a.incomplete + 1,
                 sample_incomplete :=
                   a.sample_incomplete ++ [⟨t.length, lastChars 60 t⟩] } := by
  simp [stepRecord, hx, ht, hc, hlen]

lemma stepRecord_incomplete_ge (a : Analysis) (r : Json) (t : String)
    (hx : extractOutput r = some t) (ht : ¬ t = "")
    (hc : isCompleteEnding t = false)
    (hlen : ¬ a.sample_incomplete.length < 3) :
    stepRecord a (some r)
      = { a with total_records := a.total_records + 1,
                 incomplete := a.incomplete + 1 } := by
  simp [stepRecord, hx, ht, hc, hlen]

/-! ### Claims -/

/-- C4: output-text extraction tries the shapes in fixed order — a top-level
`output` field first, then a list-valued `conversations` field whose last
element is an object with a `value` field — and every record recognized by
either shape is classified as exactly one of complete/incomplete/empty,
incrementing `total_records` exactly once, while an unrecognized record
contributes to no counter; hence for any session,
`total_records = complete + incomplete + empty`. -/
theorem C4_recognition_partition :
    (∀ fields v, jLookup "output" fields = some v →
        extractOutput (.obj fields) = some (pyStrip (pyStr v))) ∧
    (∀ fields convs turn v, jLookup "output" fields = none →
        jLookup "conversations" fields = some (.arr convs) →
        convs.getLast? = some (.obj turn) →
        jLookup "value" turn = some v →
        extractOutput (.obj fields) = some (pyStrip (pyStr v))) ∧
    (∀ a r, extractOutput r = none → stepRecord a (some r) = a) ∧
    (∀ a r t, extractOutput r = some t →
        (stepRecord a (some r)).total_records = a.total_records + 1 ∧
        (((stepRecord a (some r)).complete, (stepRecord a (some r)).incomplete,
            (stepRecord a (some r)).empty)
          = (a.complete + 1, a.incomplete, a.empty) ∨
         ((stepRecord a (some r)).complete, (stepRecord a (some r)).incomplete,
            (stepRecord a (some r)).empty)
          = (a.complete, a.incomplete + 1, a.empty) ∨
         ((stepRecord a (some r)).complete, (stepRecord a (some r)).incomplete,
            (stepRecord a (some r)).empty)
          = (a.complete, a.incomplete, a.empty + 1))) ∧
    (∀ sd d, (analyzeData sd d).total_records
        = (analyzeData sd d).complete + (analyzeData sd d).incomplete
          + (analyzeData sd d).empty) := by
  refine ⟨extractOutput_output_key, extractOutput_conversations,
    stepRecord_unrecognized, stepRecord_recognized, fun sd d => ?_⟩
  exact analyzeData_inv
    (P := fun a => a.total_records = a.complete + a.incomplete + a.empty)
    sd d rfl
    (fun a l h => stepRecord_partition a l h)
    (fun a l h => stepEvent_partition a l h)

/-- Witness for C4 at concrete records: `{"output": "The end."}` is recognized
via the `output` shape and counted once; a bare number is unrecognized and
leaves the analysis untouched. -/
theorem C4_recognition_partition_witness :
    extractOutput (Json.obj [("output", Json.str "The end.")])
      = some (pyStrip (pyStr (Json.str "The end."))) ∧
    extractOutput (Json.obj [("conversations",
        Json.arr [Json.obj [("value", Json.str "Yes!")]])])
      = some (pyStrip (pyStr (Json.str "Yes!"))) ∧
    stepRecord (initAnalysis "s") (some (Json.num 3)) = initAnalysis "s" ∧
    (stepRecord (initAnalysis "s")
        (some (Json.obj [("output", Json.str "The end.")]))).total_records
      = (initAnalysis "s").total_records + 1 := by
  refine ⟨C4_recognition_partition.1 _ _ rfl,
    C4_recognition_partition.2.1 _ _ _ _ rfl rfl rfl rfl,
    C4_recognition_partition.2.2.1 _ _ rfl,
    (C4_recognition_partition.2.2.2.1 _ _ "The end." (by decide)).1⟩

/-- C5: classification is decided on the whitespace-trimmed extracted text —
empty-after-trim text is counted `empty`; non-empty text whose last character
is one of `.`, `!`, `?`, `"` is counted `complete`; every other non-empty
text is counted `incomplete`. -/
theorem C5_classification (a : Analysis) (r : Json) (t : String)
    (h : extractOutput r = some t) :
    (∃ v, t = pyStrip (pyStr v)) ∧
    (t = "" → stepRecord a (some r)
        = { a with total_records := a.total_records + 1,
                   empty := a.empty + 1 }) ∧
    (∀ c, t.data.getLast? = some c → (c = '.' ∨ c = '!' ∨ c = '?' ∨ c = '"') →
        stepRecord a (some r)
          = { a with total_records := a.total_records + 1,
                     complete := a.complete + 1 }) ∧
    (∀ c, t.data.getLast? = some c →
        ¬ (c = '.' ∨ c = '!' ∨ c = '?' ∨ c = '"') →
        (stepRecord a (some r)).incomplete = a.incomplete + 1 ∧
        (stepRecord a (some r)).complete = a.complete ∧
        (stepRecord a (some r)).empty = a.empty) := by
  refine ⟨extractOutput_trimmed r t h,
    fun ht => stepRecord_empty_eq a r t h ht, ?_, ?_⟩
  · intro c hc hset
    have ht := getLast?_ne_empty t c hc
    have hC : isCompleteEnding t = true := by
      rw [isCompleteEnding_last t c hc]
      simp only [Bool.or_eq_true, decide_eq_true_eq]
      tauto
    exact stepRecord_complete_eq a r t h ht hC
  · intro c hc hset
    have ht := getLast?_ne_empty t c hc
    have hC : isCompleteEnding t = false := by
      rw [isCompleteEnding_last t c hc, Bool.eq_false_iff]
      intro hcon
      simp only [Bool.or_eq_true, decide_eq_true_eq] at hcon
      tauto
    by_cases hlen : a.sample_incomplete.length < 3
    · rw [stepRecord_incomplete_lt a r t h ht hC hlen]
      exact ⟨rfl, rfl, rfl⟩
    · rw [stepRecord_incomplete_ge a r t h ht hC hlen]
      exact ⟨rfl, rfl, rfl⟩

/-- Witness for C5 at `{"output": "The end."}`: the trimmed text ends in `.`,
so the record is counted `complete`. -/
theorem C5_classification_witness :
    stepRecord (initAnalysis "s")
        (some (Json.obj [("output", Json.str "The end.")]))
      = { initAnalysis "s" with total_records := (initAnalysis "s").total_records + 1,
                                complete := (initAnalysis "s").complete + 1 } := by
  have h := C5_classification (initAnalysis "s")
    (Json.obj [("output", Json.str "The end.")]) "The end." rfl
  exact h.2.2.1 '.' (by decide) (Or.inl rfl)

/-- C9: the incomplete-sample list never holds more than 3 entries; each
captured sample records the character count of the trimmed text and its last
60 characters (the full text when shorter than 60); only the first 3
incomplete classifications are captured. -/
theorem C9_sample_cap :
    (∀ sd d, (analyzeData sd d).sample_incomplete.length ≤ 3) ∧
    (∀ a r t, extractOutput r = some t → ¬ t = "" →
        isCompleteEnding t = false → a.sample_incomplete.length < 3 →
        (stepRecord a (some r)).sample_incomplete
          = a.sample_incomplete ++ [⟨t.length, lastChars 60 t⟩]) ∧
    (∀ a l, 3 ≤ a.sample_incomplete.length →
        (stepRecord a l).sample_incomplete = a.sample_incomplete) ∧
    (∀ t : String, (lastChars 60 t).data = t.data.drop (t.data.length - 60)) ∧
    (∀ t : String, t.data.length ≤ 60 → lastChars 60 t = t) := by
  refine ⟨?_, ?_, ?_, fun t => rfl, ?_⟩
  · intro sd d
    exact analyzeData_inv sd d (by simp [initAnalysis])
      stepRecord_sample_bound stepEvent_sample_bound
  · intro a r t hx ht hc hlen
    rw [stepRecord_incomplete_lt a r t hx ht hc hlen]
  · intro a l h3
    rcases stepRecord_sample_cases a l with hcs | ⟨hlt, s, hs⟩
    · exact hcs
    · omega
  · intro t h
    obtain ⟨l⟩ := t
    have hl : l.length ≤ 60 := h
    have h0 : l.length - 60 = 0 := by omega
    show (⟨l.drop (l.length - 60)⟩ : String) = ⟨l⟩
    rw [h0, List.drop_zero]

/-- Witness for C9: the incomplete record `{"output": "and then"}` is sampled
with its full 8-character text as the ending, and a session already holding 3
samples captures nothing more. -/
theorem C9_sample_cap_witness :
    (stepRecord (initAnalysis "s")
        (some (Json.obj [("output", Json.str "and then")]))).sample_incomplete
      = [⟨("and then" : String).length, lastChars 60 "and then"⟩] ∧
    lastChars 60 "and then" = "and then" ∧
    (stepRecord
        { initAnalysis "s" with
            sample_incomplete := [⟨1, "a"⟩, ⟨1, "b"⟩, ⟨1, "c"⟩] }
        (some (Json.obj [("output", Json.str "and then")]))).sample_incomplete
      = [⟨1, "a"⟩, ⟨1, "b"⟩, ⟨1, "c"⟩] := by
  refine ⟨?_, C9_sample_cap.2.2.2.2 "and then" (by decide), ?_⟩
  · have h := C9_sample_cap.2.1 (initAnalysis "s")
      (Json.obj [("output", Json.str "and then")]) "and then"
      rfl (by decide) (by decide) (by decide)
    rw [h]
    rfl
  · exact C9_sample_cap.2.2.1 _ _ (by decide)

lemma pipelineCheck_ci (a : Analysis) (fields : List (String × Json)) :
    (pipelineCheck a fields).caught_incomplete = a.caught_incomplete := by
  obtain ⟨ls, h⟩ := pipelineCheck_shape a fields
  rw [h]

lemma pipelineCheck_cmf (a : Analysis) (fields : List (String × Json)) :
    (pipelineCheck a fields).caught_missing_finish = a.caught_missing_finish := by
  obtain ⟨ls, h⟩ := pipelineCheck_shape a fields
  rw [h]

lemma pipelineCheck_cr (a : Analysis) (fields : List (String × Json)) :
    (pipelineCheck a fields).caught_refusal = a.caught_refusal := by
  obtain ⟨ls, h⟩ := pipelineCheck_shape a fields
  rw [h]

/-- The exact effect of one WARN/ERROR event with a (string) message on the
three caught-failure counters: the `elif` chain of lines 74-79. -/
lemma stepEvent_caught_formula (a : Analysis) (fields : List (String × Json))
    (msg : String) (hw : isWarnOrError fields = true)
    (hm : msgForMatching fields = some msg) :
    ((stepEvent a (some (.obj fields))).caught_incomplete,
     (stepEvent a (some (.obj fields))).caught_missing_finish,
     (stepEvent a (some (.obj fields))).caught_refusal)
      = (a.caught_incomplete
           + cond (strContains msg "Incomplete output detected") 1 0,
         a.caught_missing_finish
           + cond (!(strContains msg "Incomplete output detected")
               && strContains msg "Invalid finish_reason") 1 0,
         a.caught_refusal
           + cond (!(strContains msg "Incomplete output detected")
               && !(strContains msg "Invalid finish_reason")
               && (strContains (pyLower msg) "refused"
                   && strContains msg "Chosen response")) 1 0) := by
  by_cases h1 : strContains msg "Incomplete output detected" = true <;>
    by_cases h2 : strContains msg "Invalid finish_reason" = true <;>
    by_cases h3 : (strContains (pyLower msg) "refused"
        && strContains msg "Chosen response") = true <;>
    simp [stepEvent, hw, hm, h1, h2, h3,
      pipelineCheck_ci, pipelineCheck_cmf, pipelineCheck_cr]

lemma stepEvent_caught_gate (a : Analysis) (fields : List (String × Json))
    (hw : isWarnOrError fields = false) :
    ((stepEvent a (some (.obj fields))).caught_incomplete,
     (stepEvent a (some (.obj fields))).caught_missing_finish,
     (stepEvent a (some (.obj fields))).caught_refusal)
      = (a.caught_incomplete, a.caught_missing_finish, a.caught_refusal) := by
  simp [stepEvent, hw, pipelineCheck_ci, pipelineCheck_cmf, pipelineCheck_cr]

lemma isWarnOrError_iff (fields : List (String × Json)) :
    isWarnOrError fields = true ↔
      (jLookup "level" fields = some (.str "WARN") ∨
       jLookup "level" fields = some (.str "ERROR")) := by
  unfold isWarnOrError
  rcases h : jLookup "level" fields with _ | j
  · simp
  · cases j <;> simp

/-- C6: a failure tag is assigned only for events whose level is WARN or
ERROR; `caught_incomplete` and `caught_missing_finish` match the
case-sensitive substrings `Incomplete output detected` and
`Invalid finish_reason` in the message, and `caught_refusal` requires both
the word `refused` case-insensitively and the substring `Chosen response`
case-sensitively. -/
theorem C6_log_event_rules :
    (∀ a fields, isWarnOrError fields = false →
        ((stepEvent a (some (.obj fields))).caught_incomplete,
         (stepEvent a (some (.obj fields))).caught_missing_finish,
         (stepEvent a (some (.obj fields))).caught_refusal)
          = (a.caught_incomplete, a.caught_missing_finish,
             a.caught_refusal)) ∧
    (∀ fields, isWarnOrError fields = true ↔
        (jLookup "level" fields = some (.str "WARN") ∨
         jLookup "level" fields = some (.str "ERROR"))) ∧
    (∀ a fields msg, isWarnOrError fields = true →
        msgForMatching fields = some msg →
        ((stepEvent a (some (.obj fields))).caught_incomplete,
         (stepEvent a (some (.obj fields))).caught_missing_finish,
         (stepEvent a (some (.obj fields))).caught_refusal)
          = (a.caught_incomplete
               + cond (strContains msg "Incomplete output detected") 1 0,
             a.caught_missing_finish
               + cond (!(strContains msg "Incomplete output detected")
                   && strContains msg "Invalid finish_reason") 1 0,
             a.caught_refusal
               + cond (!(strContains msg "Incomplete output detected")
                   && !(strContains msg "Invalid finish_reason")
                   && (strContains (pyLower msg) "refused"
                       && strContains msg "Chosen response")) 1 0)) :=
  ⟨stepEvent_caught_gate, isWarnOrError_iff, stepEvent_caught_formula⟩

/-- Witness for C6: a WARN event carrying `Incomplete output detected` bumps
only `caught_incomplete`; an INFO event with the same message bumps
nothing. -/
theorem C6_log_event_rules_witness :
    ((stepEvent (initAnalysis "s") (some (Json.obj
        [("level", Json.str "WARN"),
         ("msg", Json.str "Incomplete output detected for job 42")]))).caught_incomplete,
     (stepEvent (initAnalysis "s") (some (Json.obj
        [("level", Json.str "WARN"),
         ("msg", Json.str "Incomplete output detected for job 42")]))).caught_missing_finish,
     (stepEvent (initAnalysis "s") (some (Json.obj
        [("level", Json.str "WARN"),
         ("msg", Json.str "Incomplete output detected for job 42")]))).caught_refusal)
      = (1, 0, 0) ∧
    ((stepEvent (initAnalysis "s") (some (Json.obj
        [("level", Json.str "INFO"),
         ("msg", Json.str "Incomplete output detected for job 42")]))).caught_incomplete,
     (stepEvent (initAnalysis "s") (some (Json.obj
        [("level", Json.str "INFO"),
         ("msg", Json.str "Incomplete output detected for job 42")]))).caught_missing_finish,
     (stepEvent (initAnalysis "s") (some (Json.obj
        [("level", Json.str "INFO"),
         ("msg", Json.str "Incomplete output detected for job 42")]))).caught_refusal)
      = (0, 0, 0) := by
  constructor
  · have h := C6_log_event_rules.2.2 (initAnalysis "s")
      [("level", Json.str "WARN"),
       ("msg", Json.str "Incomplete output detected for job 42")]
      "Incomplete output detected for job 42" (by decide) (by decide)
    rw [h]
    decide
  · have h := C6_log_event_rules.1 (initAnalysis "s")
      [("level", Json.str "INFO"),
       ("msg", Json.str "Incomplete output detected for job 42")]
      (by decide)
    rw [h]
    rfl

/-- C10 (implicit): for every single log event at most one of the three
failure counters is incremented — the matches are mutually exclusive with
fixed priority incomplete > missing-finish > refusal — so an event whose
message contains both `Incomplete output detected` and
`Invalid finish_reason` increments only `caught_incomplete`. -/
theorem C10_failure_tags_exclusive :
    (∀ a l,
        ((stepEvent a l).caught_incomplete,
         (stepEvent a l).caught_missing_finish,
         (stepEvent a l).caught_refusal)
            = (a.caught_incomplete, a.caught_missing_finish,
               a.caught_refusal) ∨
        ((stepEvent a l).caught_incomplete,
         (stepEvent a l).caught_missing_finish,
         (stepEvent a l).caught_refusal)
            = (a.caught_incomplete + 1, a.caught_missing_finish,
               a.caught_refusal) ∨
        ((stepEvent a l).caught_incomplete,
         (stepEvent a l).caught_missing_finish,
         (stepEvent a l).caught_refusal)
            = (a.caught_incomplete, a.caught_missing_finish + 1,
               a.caught_refusal) ∨
        ((stepEvent a l).caught_incomplete,
         (stepEvent a l).caught_missing_finish,
         (stepEvent a l).caught_refusal)
            = (a.caught_incomplete, a.caught_missing_finish,
               a.caught_refusal + 1)) ∧
    (∀ a fields msg, isWarnOrError fields = true →
        msgForMatching fields = some msg →
        strContains msg "Incomplete output detected" = true →
        strContains msg "Invalid finish_reason" = true →
        ((stepEvent a (some (.obj fields))).caught_incomplete,
         (stepEvent a (some (.obj fields))).caught_missing_finish,
         (stepEvent a (some (.obj fields))).caught_refusal)
          = (a.caught_incomplete + 1, a.caught_missing_finish,
             a.caught_refusal)) := by
  constructor
  · intro a l
    match l with
    | none => exact Or.inl rfl
    | some (.null) => exact Or.inl rfl
    | some (.bool b) => exact Or.inl rfl
    | some (.num n) => exact Or.inl rfl
    | some (.str s) => exact Or.inl rfl
    | some (.arr es) => exact Or.inl rfl
    | some (.obj fields) =>
      by_cases hw : isWarnOrError fields = true
      · rcases hm : msgForMatching fields with _ | msg
        · left
          simp [stepEvent, hw, hm]
        · rw [stepEvent_caught_formula a fields msg hw hm]
          by_cases h1 : strContains msg "Incomplete output detected" = true <;>
            by_cases h2 : strContains msg "Invalid finish_reason" = true <;>
            by_cases h3 : (strContains (pyLower msg) "refused"
                && strContains msg "Chosen response") = true <;>
            simp [h1, h2, h3]
      · left
        exact stepEvent_caught_gate a fields (by simpa using hw)
  · intro a fields msg hw hm h1 h2
    rw [stepEvent_caught_formula a fields msg hw hm, h1]
    simp

/-- Witness for C10: a WARN event whose message carries both needles bumps
only `caught_incomplete`. -/
theorem C10_failure_tags_exclusive_witness :
    ((stepEvent (initAnalysis "s") (some (Json.obj
        [("level", Json.str "ERROR"),
         ("msg", Json.str "Incomplete output detected: Invalid finish_reason")]))).caught_incomplete,
     (stepEvent (initAnalysis "s") (some (Json.obj
        [("level", Json.str "ERROR"),
         ("msg", Json.str "Incomplete output detected: Invalid finish_reason")]))).caught_missing_finish,
     (stepEvent (initAnalysis "s") (some (Json.obj
        [("level", Json.str "ERROR"),
         ("msg", Json.str "Incomplete output detected: Invalid finish_reason")]))).caught_refusal)
      = (1, 0, 0) := by
  have h := C10_failure_tags_exclusive.2 (initAnalysis "s")
    [("level", Json.str "ERROR"),
     ("msg", Json.str "Incomplete output detected: Invalid finish_reason")]
    "Incomplete output detected: Invalid finish_reason"
    (by decide) (by decide) (by decide) (by decide)
  rw [h]
  rfl

lemma lexLe_iff (as : List Char) : ∀ bs,
    lexLe as bs = true ↔ ¬ List.Lex (· < ·) bs as := by
  induction as with
  | nil =>
    intro bs
    simp only [lexLe]
    constructor
    · intro _ hcon
      exact List.Lex.not_nil_right _ _ hcon
    · intro _
      trivial
  | cons a as ih =>
    intro bs
    cases bs with
    | nil =>
      simp only [lexLe]
      constructor
      · intro hcon
        exact absurd hcon (by simp)
      · intro hcon
        exact absurd List.Lex.nil hcon
    | cons b bs =>
      by_cases hab : a = b
      · subst hab
        rw [lexLe, if_pos rfl, ih bs]
        constructor
        · intro h hcon
          exact h (List.Lex.cons_iff.mp hcon)
        · intro h hcon
          exact h (List.Lex.cons hcon)
      · rw [lexLe, if_neg hab]
        by_cases hlt : a < b
        · rw [decide_eq_true hlt]
          constructor
          · intro _ hcon
            cases hcon with
            | cons h => exact hab rfl
            | rel h => exact absurd hlt (asymm h)
          · intro _
            rfl
        · have hba : b < a :=
            lt_of_le_of_ne (le_of_not_lt hlt) (fun he => hab he.symm)
          constructor
          · intro hcon
            rw [decide_eq_true_eq] at hcon
            exact absurd hcon hlt
          · intro hcon
            exact absurd (List.Lex.rel hba) hcon

lemma strLe_iff (a b : String) : strLe a b = true ↔ a ≤ b := by
  rw [String.le_iff_toList_le, ← not_lt]
  exact lexLe_iff a.data b.data

/-- The descending order discovery must return: each name bounds all later
ones from above. -/
def geName (a b : SessionDir) : Prop := b.name ≤ a.name

lemma mem_insertDesc (x d : SessionDir) (l : List SessionDir) :
    x ∈ insertDesc d l ↔ x = d ∨ x ∈ l := by
  induction l with
  | nil => simp [insertDesc]
  | cons e rest ih =>
    unfold insertDesc
    by_cases hle : strLe e.name d.name = true
    · rw [if_pos hle]
      simp
    · rw [if_neg hle]
      simp [ih]
      tauto

lemma mem_sortDesc (x : SessionDir) (l : List SessionDir) :
    x ∈ sortDesc l ↔ x ∈ l := by
  induction l with
  | nil => simp [sortDesc]
  | cons d rest ih =>
    unfold sortDesc
    rw [mem_insertDesc]
    simp [ih]

lemma pairwise_insertDesc (d : SessionDir) (l : List SessionDir)
    (h : l.Pairwise geName) : (insertDesc d l).Pairwise geName := by
  induction l with
  | nil => simp [insertDesc]
  | cons e rest ih =>
    rw [List.pairwise_cons] at h
    obtain ⟨he, hrest⟩ := h
    unfold insertDesc
    by_cases hle : strLe e.name d.name = true
    · rw [if_pos hle]
      rw [strLe_iff] at hle
      refine List.Pairwise.cons ?_ (List.Pairwise.cons he hrest)
      intro x hx
      rcases List.mem_cons.mp hx with rfl | hx
      · exact hle
      · exact le_trans (he x hx) hle
    · rw [if_neg hle]
      rw [strLe_iff] at hle
      refine List.Pairwise.cons ?_ (ih hrest)
      intro x hx
      rcases (mem_insertDesc x d rest).mp hx with rfl | hx
      · exact le_of_not_le hle
      · exact he x hx

lemma pairwise_sortDesc (l : List SessionDir) :
    (sortDesc l).Pairwise geName := by
  induction l with
  | nil => simp [sortDesc]
  | cons d rest ih => exact pairwise_insertDesc d (sortDesc rest) ih

/-- Full characterization of the scan loop while the break threshold has not
been reached: it extends `acc` with the names of the first
`maxS - acc.length` qualifying directories, in list order. -/
lemma findLoop_eq (maxS : Nat) : ∀ (dirs : List SessionDir) (acc : List String),
    acc.length < maxS →
    findLoop maxS acc dirs
      = acc ++ ((dirs.filter dirQualifies).map SessionDir.name).take
          (maxS - acc.length) := by
  intro dirs
  induction dirs with
  | nil => intro acc hacc; simp [findLoop]
  | cons d rest ih =>
    intro acc hacc
    unfold findLoop
    by_cases hq : dirQualifies d = true
    · simp only [hq, if_true, List.filter_cons_of_pos, List.map_cons]
      by_cases hbreak : maxS ≤ (acc ++ [d.name]).length
      · rw [if_pos hbreak]
        have hms : maxS = acc.length + 1 := by
          simp at hbreak
          omega
        have htake : maxS - acc.length = 1 := by omega
        rw [htake]
        simp
      · rw [if_neg hbreak]
        have hlen : (acc ++ [d.name]).length < maxS := by
          simp at hbreak ⊢
          omega
        rw [ih (acc ++ [d.name]) hlen]
        have harith : maxS - acc.length = (maxS - (acc ++ [d.name]).length) + 1 := by
          simp
          omega
        rw [harith, List.take_succ_cons]
        simp
    · simp only [Bool.not_eq_true] at hq
      have hf : List.filter dirQualifies (d :: rest)
          = List.filter dirQualifies rest := by
        simp [hq]
      simp only [hq, Bool.false_eq_true, if_false, hf]
      have : ¬ maxS ≤ acc.length := by omega
      rw [if_neg this]
      exact ih acc hacc

lemma perm_insertDesc (d : SessionDir) (l : List SessionDir) :
    List.Perm (insertDesc d l) (d :: l) := by
  induction l with
  | nil => simp [insertDesc]
  | cons e rest ih =>
    unfold insertDesc
    by_cases hle : strLe e.name d.name = true
    · rw [if_pos hle]
    · rw [if_neg hle]
      exact List.Perm.trans (List.Perm.cons e ih) (List.Perm.swap d e rest)

lemma perm_sortDesc (l : List SessionDir) : List.Perm (sortDesc l) l := by
  induction l with
  | nil => simp [sortDesc]
  | cons d rest ih =>
    exact List.Perm.trans (perm_insertDesc d (sortDesc rest))
      (List.Perm.cons d ih)

lemma dirQualifies_log (d : SessionDir) (h : dirQualifies d = true) :
    ∃ lines, d.log = some lines ∧ 90 ≤ (lines.filter isJobLine).length := by
  obtain ⟨n, lg⟩ := d
  cases lg with
  | none => simp [dirQualifies] at h
  | some lines =>
    refine ⟨lines, rfl, ?_⟩
    simpa [dirQualifies, qualifies] using h

/-- C7 (amended): for every `limit ≥ 1`, discovery returns exactly the names
of the first `limit` qualifying directories in lexicographic descending
order; hence it returns at most `limit` paths, in descending order, never a
session whose log has fewer than 90 matching lines, and all qualifying
sessions when fewer than `limit` qualify. (For `limit = 0` the loop still
examines the first directory and may return it, see the counterexample.) -/
theorem C7_discovery (base : Option (List SessionDir)) (maxS : Nat)
    (h : 1 ≤ maxS) :
    find_latest_sessions base maxS
      = (((sortDesc (base.getD [])).filter dirQualifies).map
          SessionDir.name).take maxS ∧
    (find_latest_sessions base maxS).length ≤ maxS ∧
    (find_latest_sessions base maxS).Pairwise (fun a b => b ≤ a) ∧
    (∀ n ∈ find_latest_sessions base maxS, ∃ d, d ∈ base.getD [] ∧
        d.name = n ∧ ∃ lines, d.log = some lines ∧
          90 ≤ (lines.filter isJobLine).length) ∧
    (((base.getD []).filter dirQualifies).length < maxS →
        (find_latest_sessions base maxS).length
          = ((base.getD []).filter dirQualifies).length) := by
  have hchar : find_latest_sessions base maxS
      = (((sortDesc (base.getD [])).filter dirQualifies).map
          SessionDir.name).take maxS := by
    cases base with
    | none => simp [find_latest_sessions, sortDesc]
    | some dirs =>
      have := findLoop_eq maxS (sortDesc dirs) [] (by simpa using h)
      simpa [find_latest_sessions] using this
  refine ⟨hchar, ?_, ?_, ?_, ?_⟩
  · rw [hchar, List.length_take]
    omega
  · rw [hchar]
    refine List.Pairwise.sublist (List.take_sublist _ _) ?_
    rw [List.pairwise_map]
    exact List.Pairwise.filter _ (pairwise_sortDesc _)
  · intro n hn
    rw [hchar] at hn
    have hn2 := List.take_subset _ _ hn
    obtain ⟨d, hd, hdn⟩ := List.mem_map.mp hn2
    have hd2 := List.mem_filter.mp hd
    refine ⟨d, (mem_sortDesc d _).mp hd2.1, hdn, ?_⟩
    exact dirQualifies_log d hd2.2
  · intro hfew
    have hperm : List.Perm ((sortDesc (base.getD [])).filter dirQualifies)
        ((base.getD []).filter dirQualifies) :=
      List.Perm.filter _ (perm_sortDesc _)
    have hlen := hperm.length_eq
    rw [hchar, List.length_take, List.length_map, hlen]
    omega

/-- Witness for C7 at `limit = 2` over the two qualifying example sessions:
both are returned, newest first. -/
theorem C7_discovery_witness :
    (find_latest_sessions (some twoDirs) 2).length ≤ 2 ∧
    find_latest_sessions (some twoDirs) 2 = [newerP, olderP] := by
  refine ⟨(C7_discovery (some twoDirs) 2 (by decide)).2.1, ?_⟩
  decide

/-- C7 counterexample: with `limit = 0` and one qualifying session on disk,
the scan still examines (and appends) the first directory before the break
check, so it returns 1 > 0 sessions — refuting "returns at most `limit`
session paths" as universally stated. -/
theorem C7_discovery_counterexample :
    (find_latest_sessions (some [⟨"output/session_X", some jobLog⟩]) 0).length
      = 1 ∧
    ¬ ((find_latest_sessions
        (some [⟨"output/session_X", some jobLog⟩]) 0).length ≤ 0) := by
  decide

/-- C3 counterexample: in `"use chutes not nahcrof"` the substring `chutes`
occurs at position 4, strictly before `nahcrof` at position 15, yet the
detected provider is `nahcrof`, not `chutes` — the checks run in fixed
priority order (`nahcrof` first), not in file order. -/
theorem C3_provider_detection_counterexample :
    detectProvider (some "use chutes not nahcrof") = "nahcrof" ∧
    ¬ detectProvider (some "use chutes not nahcrof") = "chutes" := by
  decide

/-- C3 (amended): provider detection reads `config.toml.bak` and tests the
literal substrings in fixed priority order — `nahcrof` wins whenever it
occurs anywhere in the file, `chutes` only when `nahcrof` does not occur;
an absent file or one containing neither substring gives `unknown`. -/
theorem C3_provider_detection :
    detectProvider none = "unknown" ∧
    (∀ c, strContains c "nahcrof" = true →
        detectProvider (some c) = "nahcrof") ∧
    (∀ c, strContains c "nahcrof" = false → strContains c "chutes" = true →
        detectProvider (some c) = "chutes") ∧
    (∀ c, strContains c "nahcrof" = false → strContains c "chutes" = false →
        detectProvider (some c) = "unknown") := by
  refine ⟨rfl, ?_, ?_, ?_⟩
  · intro c h
    simp [detectProvider, h]
  · intro c h1 h2
    simp [detectProvider, h1, h2]
  · intro c h1 h2
    simp [detectProvider, h1, h2]

/-- Witness for C3 at three concrete snapshots. -/
theorem C3_provider_detection_witness :
    detectProvider (some "use chutes not nahcrof") = "nahcrof" ∧
    detectProvider (some "api_base = llm.chutes.ai") = "chutes" ∧
    detectProvider (some "api_base = example.com") = "unknown" :=
  ⟨C3_provider_detection.2.1 _ (by decide),
   C3_provider_detection.2.2.1 _ (by decide) (by decide),
   C3_provider_detection.2.2.2 _ (by decide) (by decide)⟩

/-- C8: when zero sessions are found (none given explicitly and none
discovered), the run prints the guidance warning and exits without writing
the output artifact. -/
theorem C8_no_sessions (base : Option (List SessionDir)) (maxAuto : Nat)
    (fs : String → Option SessionData)
    (h : find_latest_sessions base maxAuto = []) :
    (mainRun [] base maxAuto fs).written = none ∧
    (mainRun [] base maxAuto fs).warnedNoSessions = true := by
  simp [mainRun, h]

/-- Witness for C8: a missing base directory discovers nothing, so nothing is
written. -/
theorem C8_no_sessions_witness :
    (mainRun [] none 2 (fun _ => none)).written = none ∧
    (mainRun [] none 2 (fun _ => none)).warnedNoSessions = true :=
  C8_no_sessions none 2 (fun _ => none) rfl

/-- C2 counterexample: a comparison-mode (auto-discovered) run whose written
artifact is the `{"sessions": [...]}` document, not the provider-keyed map
the specification describes for that mode. -/
theorem C2_output_schema_counterexample :
    comparisonRun.comparisonMode = true ∧
    comparisonRun.written
      = some (OutputDoc.sessionsDoc comparisonRun.analyses) ∧
    comparisonRun.written
      ≠ some (OutputDoc.providerMapDoc
          (buildProviderResults comparisonRun.analyses)) := by
  refine ⟨rfl, rfl, fun h => ?_⟩
  exact OutputDoc.noConfusion (Option.some.inj h)

/-- C2 (amended): the persisted output document does not depend on the mode —
every run that writes at all writes `{"sessions": analyses}` with the full
analysis collection, in per-session and comparison mode alike (the script
always executes `output = {"sessions": analyses}`). -/
theorem C2_output_schema (argSessions : List String)
    (base : Option (List SessionDir)) (maxAuto : Nat)
    (fs : String → Option SessionData) (d : OutputDoc)
    (h : (mainRun argSessions base maxAuto fs).written = some d) :
    d = OutputDoc.sessionsDoc (mainRun argSessions base maxAuto fs).analyses := by
  simp only [mainRun] at h ⊢
  by_cases h1 : (if argSessions.isEmpty then find_latest_sessions base maxAuto
      else argSessions).isEmpty
  · rw [if_pos h1] at h
    exact absurd h (by simp)
  · rw [if_neg h1] at h ⊢
    by_cases h2 : (analyzeAll fs (if argSessions.isEmpty
        then find_latest_sessions base maxAuto else argSessions)).isEmpty
    · rw [if_pos h2] at h
      exact absurd h (by simp)
    · rw [if_neg h2] at h ⊢
      exact (Option.some.inj h).symm

/-- Witness for C2: a per-session-mode run that writes the
`{"sessions": [...]}` document. -/
theorem C2_output_schema_witness :
    OutputDoc.sessionsDoc (analyzeAll chutesFS [olderP])
      = OutputDoc.sessionsDoc (mainRun [olderP] none 2 chutesFS).analyses :=
  C2_output_schema [olderP] none 2 chutesFS
    (OutputDoc.sessionsDoc (analyzeAll chutesFS [olderP])) rfl

/-- C1: the code keeps the *oldest* analysis per provider, not the latest.
In the comparison-mode example run, discovery returns the two `chutes`
sessions newest-first, the overwrite loop then lets the later (older)
session win, and the per-provider map ends at the older session — the
code's own `keep the latest per provider` comment and the specification
both say the newer one should be retained. -/
theorem C1_latest_per_provider_bug :
    comparisonRun.sessions = [newerP, olderP] ∧
    comparisonRun.analyses.map (fun p => p.2.session_dir)
      = [newerP, olderP] ∧
    (dictLookup (comparisonRun.provider_results.getD []) "chutes").map
        (fun r => r.2.session_dir) = some olderP ∧
    ¬ olderP = newerP := by
  decide
